import Mathlib

/-!
Verification of the demuxing/decoding driver
(`src/demuxing_decoding/demuxing_decoding/main.cpp`).

The program is a sequential driver over the libavformat/libavcodec API:
it opens an input container, selects the best video and audio streams,
opens a decoder per stream, pulls compressed packets, decodes them and
appends raw decoded payloads to two flat output files.  The shallow
embedding below models the control flow of the program and file writes
faithfully; the external library calls (`avcodec_decode_video2`,
`avcodec_decode_audio4`, `av_find_best_stream`, `avcodec_open2`,
`av_image_copy`, `fopen`, ...) are represented by oracle values or
oracle functions supplied as parameters, since their behaviour is not
part of this repository.  Files are byte lists; `fwrite buf n file`
appends the first `n` bytes of `buf`.
-/

namespace Demux

/-- File write model: `fwrite(buf, 1, count, file)` appends `count`
bytes read from `buf` to the file. -/
def fwrite (buf : List Nat) (count : Nat) (file : List Nat) : List Nat :=
  file ++ buf.take count

/-- A decoded frame (`AVFrame`): the fields the driver reads.
`format` is the raw `int` of `frame->format` (a pixel format for video
frames, a sample format for audio frames); `planes` models
`frame->data` / `frame->extended_data` as byte lists, one per plane;
`channels` is the audio channel count (never read by `decode_packet`). -/
structure Frame where
  width : Int
  height : Int
  format : Int
  nb_samples : Nat
  channels : Nat
  planes : List (List Nat)
deriving DecidableEq, Inhabited

/-- Model of the libavutil function `av_get_bytes_per_sample`, on the numeric
values of `enum AVSampleFormat` (U8=0, S16=1, S32=2, FLT=3, DBL=4,
U8P=5, S16P=6, S32P=7, FLTP=8, DBLP=9, S64=10, S64P=11): size of one
sample in bytes, 0 for an invalid format. -/
def av_get_bytes_per_sample (sample_fmt : Int) : Nat :=
  if sample_fmt = 0 ∨ sample_fmt = 5 then 1
  else if sample_fmt = 1 ∨ sample_fmt = 6 then 2
  else if sample_fmt = 2 ∨ sample_fmt = 7 then 4
  else if sample_fmt = 3 ∨ sample_fmt = 8 then 4
  else if sample_fmt = 4 ∨ sample_fmt = 9 then 8
  else if sample_fmt = 10 ∨ sample_fmt = 11 then 8
  else 0

/-- The compressed packet (`AVPacket`) fields the driver manipulates:
`data_off` is the offset of `pkt.data` into the packet buffer (the
loop advances the data pointer), `size` is `pkt.size` (a C `int`). -/
structure Pkt where
  stream_index : Int
  data_off : Int
  size : Int
deriving DecidableEq, Inhabited

/-- The run-scoped globals fixed once the codec contexts are opened:
stream indices chosen by `open_codec_context`, the video geometry
(`width`, `height`, `pix_fmt`) recorded from the video decoder context,
and `video_dst_bufsize` returned by `av_image_alloc`. -/
structure Config where
  video_stream_idx : Int
  audio_stream_idx : Int
  width : Int
  height : Int
  pix_fmt : Int
  video_dst_bufsize : Nat
deriving DecidableEq, Inhabited

/-- The mutable globals `decode_packet` reads and writes: the shared
packet, the two frame counters and the two output files. -/
structure ProgState where
  pkt : Pkt
  video_frame_count : Nat
  audio_frame_count : Nat
  video_file : List Nat
  audio_file : List Nat
deriving DecidableEq, Inhabited

/-- Oracle outcome of one `avcodec_decode_video2` /
`avcodec_decode_audio4` call: the `int` return value, the `got_frame`
out-parameter, and the decoded frame when one was produced. -/
structure LibDecode where
  ret : Int
  got : Bool
  frame : Frame
deriving DecidableEq, Inhabited

/-- One call of `decode_packet(&got_frame, cached)`.

`copyImage` is the oracle for `av_image_copy` into the preallocated
`video_dst_data` buffer (the bytes of its result are the buffer contents
after the copy); `dec` is the oracle outcome of the libavcodec decode
call performed in the branch taken.  Returns the `int`
result (`decoded` or an error), the `got_frame` out-parameter, and the
updated globals.  Transcribed from `main.cpp` lines 89-160:
`decoded` starts as `pkt.size`; the video branch checks the frame
geometry against the recorded `width`/`height`/`pix_fmt` and on
success appends `video_dst_bufsize` bytes of the copied image; the
audio branch sets `decoded = FFMIN(ret, pkt.size)` and appends
`nb_samples * av_get_bytes_per_sample(format)` bytes of the first
plane. -/
def decode_packet (cfg : Config) (copyImage : Frame → List Nat)
    (dec : LibDecode) (st : ProgState) : Int × Bool × ProgState :=
  let decoded := st.pkt.size
  if st.pkt.stream_index = cfg.video_stream_idx then
    if dec.ret < 0 then (dec.ret, false, st)
    else if dec.got then
      if dec.frame.width ≠ cfg.width ∨ dec.frame.height ≠ cfg.height ∨
          dec.frame.format ≠ cfg.pix_fmt then
        (-1, true, st)
      else
        (decoded, true,
          { st with
              video_frame_count := st.video_frame_count + 1,
              video_file :=
                fwrite (copyImage dec.frame) cfg.video_dst_bufsize st.video_file })
    else (decoded, false, st)
  else if st.pkt.stream_index = cfg.audio_stream_idx then
    if dec.ret < 0 then (dec.ret, false, st)
    else
      let decoded := min dec.ret st.pkt.size
      if dec.got then
        let unpadded_linesize :=
          dec.frame.nb_samples * av_get_bytes_per_sample dec.frame.format
        (decoded, true,
          { st with
              audio_frame_count := st.audio_frame_count + 1,
              audio_file :=
                fwrite (dec.frame.planes.headD []) unpadded_linesize st.audio_file })
      else (decoded, false, st)
  else (decoded, false, st)

/-- The inner per-packet loop of `main` (lines 350-362): after each
`decode_packet` call with nonnegative result `ret`, advance `pkt.data`
by `ret` and reduce `pkt.size` by `ret`; repeat while `pkt.size > 0`,
breaking out on a negative result.  The loop body runs first (do-while).
Each iteration consumes one oracle outcome from `ds`; `none` means the
oracle list was exhausted before the loop exited. -/
def packet_loop (cfg : Config) (copyImage : Frame → List Nat) :
    List LibDecode → ProgState → Option (Int × ProgState)
  | [], _ => none
  | d :: ds, st =>
    let res := decode_packet cfg copyImage d st
    let ret := res.1
    let st1 := res.2.2
    if ret < 0 then some (ret, st1)
    else
      let st2 := { st1 with
        pkt := { st1.pkt with
          data_off := st1.pkt.data_off + ret,
          size := st1.pkt.size - ret } }
      if 0 < st2.pkt.size then packet_loop cfg copyImage ds st2
      else some (ret, st2)

/-- Internal state of a decoder for the draining phase: the frames it
still holds buffered.  Decoding with an empty packet (`data` NULL,
`size` 0) returns the next buffered frame with `got_frame = 1`, or
`got_frame = 0` once the buffer is empty (the `CODEC_CAP_DELAY`
draining contract of `avcodec_decode_video2` / `avcodec_decode_audio4`). -/
structure Decoder where
  buffered : List Frame
deriving DecidableEq, Inhabited

/-- One decode call on an empty packet: pop the next buffered frame if
any (return value 0, the byte count the old API reports for an empty packet). -/
def drain (d : Decoder) : LibDecode × Decoder :=
  match d.buffered with
  | [] => ({ ret := 0, got := false, frame := default }, d)
  | f :: fs => ({ ret := 0, got := true, frame := f }, ⟨fs⟩)

/-- One iteration of the flush loop body: `decode_packet(&got_frame, 1)`
on the (now empty) packet.  `decode_packet` dispatches on
`pkt.stream_index`, so the library decode call — and hence the drain —
hits the video decoder when the index matches `video_stream_idx`, the
audio decoder when it matches `audio_stream_idx`, and no decoder
otherwise.  Returns (ret, got_frame, video decoder, audio decoder,
globals). -/
def flush_step (cfg : Config) (copyImage : Frame → List Nat)
    (vdec adec : Decoder) (st : ProgState) :
    Int × Bool × Decoder × Decoder × ProgState :=
  if st.pkt.stream_index = cfg.video_stream_idx then
    let dv := drain vdec
    let res := decode_packet cfg copyImage dv.1 st
    (res.1, res.2.1, dv.2, adec, res.2.2)
  else if st.pkt.stream_index = cfg.audio_stream_idx then
    let da := drain adec
    let res := decode_packet cfg copyImage da.1 st
    (res.1, res.2.1, vdec, da.2, res.2.2)
  else
    let res := decode_packet cfg copyImage default st
    (res.1, res.2.1, vdec, adec, res.2.2)

/-- The flush loop of `main` (lines 364-370): with `pkt.data = NULL`
and `pkt.size = 0`, repeat `decode_packet(&got_frame, 1)` while
`got_frame` is set.  `fuel` bounds the number of iterations so the
recursion is structural; `none` means the fuel ran out before
`got_frame` became 0. -/
def flush_loop (cfg : Config) (copyImage : Frame → List Nat) :
    Nat → Decoder → Decoder → ProgState → Option (Decoder × Decoder × ProgState)
  | 0, _, _, _ => none
  | fuel + 1, vdec, adec, st =>
    let res := flush_step cfg copyImage vdec adec st
    if res.2.1 then flush_loop cfg copyImage fuel res.2.2.1 res.2.2.2.1 res.2.2.2.2
    else some (res.2.2.1, res.2.2.2.1, res.2.2.2.2)

/-- The geometry check of the video branch of `decode_packet` (lines
105-106), as a predicate on a decoded frame: width, height and pixel
format all equal the values recorded when the video decoder was
opened. -/
def geometryMatches (cfg : Config) (f : Frame) : Bool :=
  decide (f.width = cfg.width ∧ f.height = cfg.height ∧ f.format = cfg.pix_fmt)

/-- Command-line handling of `main` (lines 241-261).  `argv` includes
the program name, so `argv.length` is `argc`.  `none` models printing
the usage text and `exit(1)`; otherwise the result is the `refcount`
flag and the source, video-destination and audio-destination file
names.  When `argc == 5` and `argv[1]` is `-refcount`, `argv` is
shifted by one before the names are read. -/
def parse_args (argv : List String) : Option (Bool × String × String × String) :=
  if argv.length ≠ 4 ∧ argv.length ≠ 5 then none
  else if argv.length = 5 ∧ argv.getD 1 "" = "-refcount" then
    some (true, argv.getD 2 "", argv.getD 3 "", argv.getD 4 "")
  else
    some (false, argv.getD 1 "", argv.getD 2 "", argv.getD 3 "")

/-- The two media types `main` requests from `open_codec_context`. -/
inductive MediaType where
  | video
  | audio
deriving DecidableEq, Inhabited

/-- Model of `av_get_media_type_string` for the two types used. -/
def av_get_media_type_string : MediaType → String
  | .video => "video"
  | .audio => "audio"

/-- `AVERROR(EINVAL)`: FFmpeg negates the POSIX error code (22). -/
def AVERROR_EINVAL : Int := -22

/-- Oracle outcomes of the three library calls `open_codec_context`
makes: the `av_find_best_stream` result (stream index, or a negative
error when no stream of the type exists), whether
`avcodec_find_decoder` finds a decoder, and the `avcodec_open2`
result. -/
structure OccEnv where
  best_stream_ret : Int
  decoder_found : Bool
  open2_ret : Int
deriving DecidableEq, Inhabited

/-- Result of `open_codec_context` (lines 164-206): the `int` return,
the value of the `*stream_idx` out-parameter after the call (`idx0` is
its value before), whether `avcodec_open2` succeeded (a decoder was
opened), and the error message printed to stderr, if any. -/
structure OccResult where
  ret : Int
  stream_idx : Int
  opened : Bool
  err_msg : Option String
deriving DecidableEq, Inhabited

/-- `open_codec_context(&stream_idx, fmt_ctx, type)` transcribed: on
`av_find_best_stream` failure print the could-not-find message naming
the media type and the input file and return the error; on a missing
decoder return `AVERROR(EINVAL)`; on `avcodec_open2` failure return its
error; otherwise store the stream index and return 0. -/
def open_codec_context (env : OccEnv) (typ : MediaType) (src : String)
    (idx0 : Int) : OccResult :=
  if env.best_stream_ret < 0 then
    { ret := env.best_stream_ret, stream_idx := idx0, opened := false,
      err_msg := some ("Could not find " ++ av_get_media_type_string typ ++
        " stream in input file \x27" ++ src ++ "\x27") }
  else if ¬ env.decoder_found then
    { ret := AVERROR_EINVAL, stream_idx := idx0, opened := false,
      err_msg := some ("Failed to find " ++ av_get_media_type_string typ ++ " codec") }
  else if env.open2_ret < 0 then
    { ret := env.open2_ret, stream_idx := idx0, opened := false,
      err_msg := some ("Failed to open " ++ av_get_media_type_string typ ++ " codec") }
  else
    { ret := 0, stream_idx := env.best_stream_ret, opened := true, err_msg := none }

/-- Oracle outcomes of the library calls in the setup sequence of `main`:
`avformat_open_input`, `avformat_find_stream_info`, the two
`open_codec_context` environments, the two `fopen` calls on the output
files, the `av_image_alloc` return (buffer size, or negative error) and
`av_frame_alloc` success.  `src` is the input file name passed to
`open_codec_context`. -/
structure MainEnv where
  src : String
  open_input_ok : Bool
  stream_info_ok : Bool
  video_occ : OccEnv
  video_fopen_ok : Bool
  image_alloc_ret : Int
  audio_occ : OccEnv
  audio_fopen_ok : Bool
  frame_alloc_ok : Bool
deriving DecidableEq, Inhabited

/-- How one run of `main` terminates: the process exit status, whether
the unified cleanup sequence at the `end:` label (lines 404-413) ran
before termination, and whether the packet-reading/decoding loop was
reached. -/
structure MainResult where
  exit_code : Nat
  cleanup_run : Bool
  decode_loop_run : Bool
deriving DecidableEq, Inhabited

/-- Control flow of `main` (lines 236-417) as far as termination and
cleanup are concerned.  A bad argument count, an `avformat_open_input`
failure and an `avformat_find_stream_info` failure each call `exit(1)`
directly, bypassing the `end:` label.  Every later failure sets `ret`
and jumps to `end:`; the cleanup there runs and the function then
executes `return 0`, so the exit status of every path through `end:`
is 0 regardless of `ret`.  The decode loop is reached only when both
streams were opened and the frame allocation succeeded. -/
def main_run (argc : Nat) (env : MainEnv) : MainResult :=
  if argc ≠ 4 ∧ argc ≠ 5 then ⟨1, false, false⟩
  else if env.open_input_ok = false then ⟨1, false, false⟩
  else if env.stream_info_ok = false then ⟨1, false, false⟩
  else
    let vret := (open_codec_context env.video_occ .video env.src (-1)).ret
    if 0 ≤ vret ∧ env.video_fopen_ok = false then ⟨0, true, false⟩
    else if 0 ≤ vret ∧ env.image_alloc_ret < 0 then ⟨0, true, false⟩
    else
      let aret := (open_codec_context env.audio_occ .audio env.src (-1)).ret
      if 0 ≤ aret ∧ env.audio_fopen_ok = false then ⟨0, true, false⟩
      else if ¬ (0 ≤ aret ∧ 0 ≤ vret) then ⟨0, true, false⟩
      else if env.frame_alloc_ok = false then ⟨0, true, false⟩
      else ⟨0, true, true⟩

/-- `enum AVSampleFormat` of libavutil, as declared (including the
sentinel members `NONE` and `NB`). -/
inductive SampleFmt where
  | fmtNone
  | u8
  | s16
  | s32
  | flt
  | dbl
  | u8p
  | s16p
  | s32p
  | fltp
  | dblp
  | s64
  | s64p
  | nb
deriving DecidableEq, Inhabited

/-- The lookup table `sample_fmt_entries` of
`get_format_from_sample_fmt` (lines 213-219): sample format,
big-endian name, little-endian name. -/
def sample_fmt_entries : List (SampleFmt × String × String) :=
  [(.u8, "u8", "u8"),
   (.s16, "s16be", "s16le"),
   (.s32, "s32be", "s32le"),
   (.flt, "f32be", "f32le"),
   (.dbl, "f64be", "f64le")]

/-- `AV_NE(be, le)` on a little-endian build picks the little-endian
alternative. -/
def AV_NE (_be le : String) : String := le

/-- `get_format_from_sample_fmt(&fmt, sample_fmt)` (lines 208-234):
`*fmt` starts NULL; the loop scans `sample_fmt_entries` in order and on
a match stores the name of the entry and returns 0; if no entry matches the
function returns -1 with `*fmt` still NULL.  The pair is (return
value, final `*fmt`). -/
def get_format_from_sample_fmt (sample_fmt : SampleFmt) : Int × Option String :=
  match sample_fmt_entries.find? (fun e => e.1 = sample_fmt) with
  | some e => (0, some (AV_NE e.2.1 e.2.2))
  | none => (-1, none)

/-! ### Concrete instances used to evaluate the development -/

/-- A small configuration: video stream 0, audio stream 1, 2x2 video of
pixel format 0, packed frame size 4 bytes. -/
def cfgSmall : Config :=
  { video_stream_idx := 0, audio_stream_idx := 1, width := 2, height := 2,
    pix_fmt := 0, video_dst_bufsize := 4 }

/-- A decoded frame matching the recorded video geometry of `cfgSmall`. -/
def frameMatch : Frame :=
  { width := 2, height := 2, format := 0, nb_samples := 0, channels := 0,
    planes := [[9, 9, 9, 9]] }

/-- A decoded video frame whose width differs from the recorded one. -/
def frameWider : Frame :=
  { width := 3, height := 2, format := 0, nb_samples := 0, channels := 0,
    planes := [[9, 9, 9, 9]] }

/-- A decoded stereo audio frame: 3 samples of format S16 (code 1),
two planes of 8 bytes each (6 payload bytes plus padding). -/
def frameAudio : Frame :=
  { width := 0, height := 0, format := 1, nb_samples := 3, channels := 2,
    planes := [[1, 2, 3, 4, 5, 6, 0, 0], [7, 8, 9, 10, 11, 12, 0, 0]] }

/-- An `av_image_copy` oracle: every frame packs to 4 bytes of value 7. -/
def ciSmall : Frame → List Nat := fun _ => [7, 7, 7, 7]

/-- Globals whose packet carries stream index 0 (the video stream of
`cfgSmall`) with empty data, as after the read loop ends. -/
def stVideoPkt : ProgState :=
  { pkt := { stream_index := 0, data_off := 0, size := 0 },
    video_frame_count := 0, audio_frame_count := 0,
    video_file := [], audio_file := [] }

/-- Globals whose packet carries stream index 1 (the audio stream of
`cfgSmall`) and 6 bytes of compressed data. -/
def stAudioPkt : ProgState :=
  { pkt := { stream_index := 1, data_off := 0, size := 6 },
    video_frame_count := 0, audio_frame_count := 0,
    video_file := [], audio_file := [] }

/-- A `MainEnv` in which every library call succeeds. -/
def envAllOk : MainEnv :=
  { src := "in.mp4", open_input_ok := true, stream_info_ok := true,
    video_occ := { best_stream_ret := 0, decoder_found := true, open2_ret := 0 },
    video_fopen_ok := true, image_alloc_ret := 16,
    audio_occ := { best_stream_ret := 1, decoder_found := true, open2_ret := 0 },
    audio_fopen_ok := true, frame_alloc_ok := true }

/-! ### Helper lemmas -/

/-- `decode_packet` never writes the packet fields. -/
lemma decode_packet_pkt_unchanged (cfg : Config) (ci : Frame → List Nat)
    (dec : LibDecode) (st : ProgState) :
    ((decode_packet cfg ci dec st).2.2).pkt = st.pkt := by
  unfold decode_packet
  split_ifs <;> rfl

/-- A successful `decode_packet` call reports at most `pkt.size` bytes
consumed. -/
lemma decode_packet_ret_le_size (cfg : Config) (ci : Frame → List Nat)
    (dec : LibDecode) (st : ProgState) :
    (decode_packet cfg ci dec st).1 < 0 ∨
      (decode_packet cfg ci dec st).1 ≤ st.pkt.size := by
  unfold decode_packet
  split_ifs <;> simp_all

/-- When the packet is nonempty and the library call either fails or
consumes at least one byte, `decode_packet` either fails or consumes at
least one byte. -/
lemma decode_packet_ret_pos (cfg : Config) (ci : Frame → List Nat)
    (dec : LibDecode) (st : ProgState)
    (hd : dec.ret < 0 ∨ 1 ≤ dec.ret) (hsz : 1 ≤ st.pkt.size) :
    (decode_packet cfg ci dec st).1 < 0 ∨
      1 ≤ (decode_packet cfg ci dec st).1 := by
  unfold decode_packet
  split_ifs <;> simp_all

/-- A flush step on a packet carrying the video stream index with an
empty video decoder buffer: no frame is produced, nothing changes. -/
lemma flush_step_video_empty (cfg : Config) (ci : Frame → List Nat)
    (adec : Decoder) (st : ProgState)
    (hidx : st.pkt.stream_index = cfg.video_stream_idx) :
    flush_step cfg ci ⟨[]⟩ adec st = (st.pkt.size, false, ⟨[]⟩, adec, st) := by
  simp [flush_step, drain, decode_packet, hidx]

/-- A flush step on a packet carrying the video stream index pops the
next buffered video frame; when its geometry matches the recorded one
the packed copy is appended to the video file. -/
lemma flush_step_video_cons (cfg : Config) (ci : Frame → List Nat)
    (adec : Decoder) (st : ProgState) (f : Frame) (fs : List Frame)
    (hidx : st.pkt.stream_index = cfg.video_stream_idx)
    (hw : f.width = cfg.width) (hh : f.height = cfg.height)
    (hf : f.format = cfg.pix_fmt) :
    flush_step cfg ci ⟨f :: fs⟩ adec st =
      (st.pkt.size, true, ⟨fs⟩, adec,
        { st with
            video_frame_count := st.video_frame_count + 1,
            video_file := fwrite (ci f) cfg.video_dst_bufsize st.video_file }) := by
  simp [flush_step, drain, decode_packet, hidx, hw, hh, hf]

/-- A flush step on a packet carrying the video stream index pops the
next buffered video frame; when its geometry differs from the recorded
one, `decode_packet` reports the fatal -1 with `got_frame` still set,
and nothing is written. -/
lemma flush_step_video_cons_mismatch (cfg : Config) (ci : Frame → List Nat)
    (adec : Decoder) (st : ProgState) (f : Frame) (fs : List Frame)
    (hidx : st.pkt.stream_index = cfg.video_stream_idx)
    (hgeom : f.width ≠ cfg.width ∨ f.height ≠ cfg.height ∨
      f.format ≠ cfg.pix_fmt) :
    flush_step cfg ci ⟨f :: fs⟩ adec st = (-1, true, ⟨fs⟩, adec, st) := by
  rcases hgeom with h | h | h <;>
    simp [flush_step, drain, decode_packet, hidx, h]

/-- A flush step on a packet carrying the audio stream index (and not
the video one) with an empty audio decoder buffer: no frame is
produced, nothing changes. -/
lemma flush_step_audio_empty (cfg : Config) (ci : Frame → List Nat)
    (vdec : Decoder) (st : ProgState)
    (hnv : st.pkt.stream_index ≠ cfg.video_stream_idx)
    (ha : st.pkt.stream_index = cfg.audio_stream_idx) :
    flush_step cfg ci vdec ⟨[]⟩ st =
      (min 0 st.pkt.size, false, vdec, ⟨[]⟩, st) := by
  have hne : ¬ (cfg.audio_stream_idx = cfg.video_stream_idx) := by
    intro hc
    exact hnv (by rw [ha, hc])
  simp [flush_step, drain, decode_packet, hnv, ha, hne]

/-- A flush step on a packet carrying the audio stream index (and not
the video one) pops the next buffered audio frame and appends its
unpadded first-plane payload to the audio file. -/
lemma flush_step_audio_cons (cfg : Config) (ci : Frame → List Nat)
    (vdec : Decoder) (st : ProgState) (f : Frame) (fs : List Frame)
    (hnv : st.pkt.stream_index ≠ cfg.video_stream_idx)
    (ha : st.pkt.stream_index = cfg.audio_stream_idx) :
    flush_step cfg ci vdec ⟨f :: fs⟩ st =
      (min 0 st.pkt.size, true, vdec, ⟨fs⟩,
        { st with
            audio_frame_count := st.audio_frame_count + 1,
            audio_file := fwrite (f.planes.headD [])
              (f.nb_samples * av_get_bytes_per_sample f.format)
              st.audio_file }) := by
  have hne : ¬ (cfg.audio_stream_idx = cfg.video_stream_idx) := by
    intro hc
    exact hnv (by rw [ha, hc])
  simp [flush_step, drain, decode_packet, hnv, ha, hne]

/-! ### Claim theorems -/

/-- C10: `get_format_from_sample_fmt` returns 0 and sets `*fmt` to a
non-null format-name string exactly for the sample formats U8, S16,
S32, FLT and DBL, and for every other sample format it returns -1 and
leaves `*fmt` NULL. -/
theorem get_format_from_sample_fmt_characterization :
    ∀ f : SampleFmt,
      (((get_format_from_sample_fmt f).1 = 0 ∧
          ((get_format_from_sample_fmt f).2).isSome = true) ↔
        (f = .u8 ∨ f = .s16 ∨ f = .s32 ∨ f = .flt ∨ f = .dbl))
      ∧ (((get_format_from_sample_fmt f).1 = -1 ∧
          (get_format_from_sample_fmt f).2 = none) ↔
        ¬ (f = .u8 ∨ f = .s16 ∨ f = .s32 ∨ f = .flt ∨ f = .dbl)) := by
  intro f
  cases f <;> exact ⟨by decide, by decide⟩

/-- C8 counterexample: the 5-argument invocation whose first argument
is `x.mp4` (not `-refcount`) is accepted — `parse_args` does not take
the usage-error path; the three file names are read from arguments 1-3
and the final argument is silently ignored. -/
theorem parse_args_extra_argument_accepted :
    parse_args ["prog", "x.mp4", "v.raw", "a.raw", "extra"] =
      some (false, "x.mp4", "v.raw", "a.raw") ∧
    parse_args ["prog", "x.mp4", "v.raw", "a.raw", "extra"] ≠ none := by
  exact ⟨rfl, by decide⟩

/-- C8 (amended): invocations with an argument count other than 4 or 5
print the usage text and exit with status 1; with 4 arguments the file
names are arguments 1-3 and reference counting stays off; with 5
arguments and first argument `-refcount` reference counting is enabled
and the file names are arguments 2-4; with 5 arguments and any other
first argument the invocation is still accepted with reference
counting off, file names from arguments 1-3, last argument ignored. -/
theorem parse_args_characterization :
    (∀ argv : List String,
      (argv.length ≠ 4 ∧ argv.length ≠ 5 → parse_args argv = none)
      ∧ (argv.length = 4 →
          parse_args argv =
            some (false, argv.getD 1 "", argv.getD 2 "", argv.getD 3 ""))
      ∧ (argv.length = 5 → argv.getD 1 "" = "-refcount" →
          parse_args argv =
            some (true, argv.getD 2 "", argv.getD 3 "", argv.getD 4 ""))
      ∧ (argv.length = 5 → argv.getD 1 "" ≠ "-refcount" →
          parse_args argv =
            some (false, argv.getD 1 "", argv.getD 2 "", argv.getD 3 "")))
    ∧ (∀ (argc : Nat) (env : MainEnv), argc ≠ 4 → argc ≠ 5 →
        main_run argc env = ⟨1, false, false⟩) := by
  constructor
  · intro argv
    refine ⟨fun h => ?_, fun h4 => ?_, fun h5 hr => ?_, fun h5 hr => ?_⟩
    · simp [parse_args, h]
    · simp [parse_args, h4]
    · simp [parse_args, h5, hr]
      exact (List.getD_eq_getElem argv "" (by omega)).symm.trans hr
    · simp [parse_args, h5, hr]
      exact fun hc => hr ((List.getD_eq_getElem argv "" (by omega)).trans hc)
  · intro argc env h4 h5
    simp [main_run, h4, h5]

/-- C8 witness: the `-refcount` form enables reference counting and
takes the file names from the arguments after the option. -/
theorem parse_args_characterization_witness :
    parse_args ["p", "-refcount", "in.mp4", "v.raw", "a.raw"] =
      some (true, "in.mp4", "v.raw", "a.raw") := by
  exact (parse_args_characterization.1
    ["p", "-refcount", "in.mp4", "v.raw", "a.raw"]).2.2.1 rfl rfl

/-- C9 counterexample: when `avformat_open_input` fails the process
terminates through `exit(1)` (line 271), and the unified cleanup
sequence at the `end:` label does not run. -/
theorem cleanup_skipped_when_open_input_fails :
    (main_run 4 { envAllOk with open_input_ok := false }).cleanup_run = false := by
  decide

/-- C9 (amended): the unified cleanup sequence at `end:` runs exactly
on the runs whose argument count is 4 or 5 and whose
`avformat_open_input` and `avformat_find_stream_info` calls succeed;
usage errors and those two early failures terminate via `exit(1)`
without the cleanup sequence. -/
theorem cleanup_run_characterization :
    ∀ (argc : Nat) (env : MainEnv),
      (main_run argc env).cleanup_run = true ↔
        ((argc = 4 ∨ argc = 5) ∧ env.open_input_ok = true ∧
          env.stream_info_ok = true) := by
  intro argc env
  unfold main_run
  split_ifs <;> simp_all <;> (try (split_ifs <;> simp_all)) <;> tauto

/-- C1: evaluating `main` on a run where everything succeeds until the
video output file fails to open (`fopen` returns NULL, line 288-293):
the code prints an error, sets `ret = 1` and jumps to `end:`, but the
function ends with `return 0` (line 416), so the process exit status
is 0 — not 1 as the specification requires for an unrecoverable
failure. -/
theorem main_exit_zero_when_video_output_open_fails :
    main_run 4 { envAllOk with video_fopen_ok := false } =
      { exit_code := 0, cleanup_run := true, decode_loop_run := false } := by
  decide

/-- C7: when `av_find_best_stream` reports that no stream of the
requested media type exists (a negative return), `open_codec_context`
prints the error naming the media type and the input file and returns
that negative value with the out-parameter untouched and no decoder
opened; and a run in which either required stream is absent — the
video one or the audio one — goes to cleanup with an error before ever
reaching the decode loop (the check at line 325 aborts when either
stream pointer is still null). -/
theorem open_codec_context_missing_stream
    (e : OccEnv) (typ : MediaType) (src : String) (idx0 : Int)
    (argc : Nat) (env : MainEnv)
    (hbest : e.best_stream_ret < 0)
    (henv : env.video_occ = e ∨ env.audio_occ = e)
    (hargc : argc = 4 ∨ argc = 5)
    (hopen : env.open_input_ok = true)
    (hinfo : env.stream_info_ok = true) :
    ((open_codec_context e typ src idx0).ret < 0
      ∧ (open_codec_context e typ src idx0).ret = e.best_stream_ret
      ∧ (open_codec_context e typ src idx0).opened = false
      ∧ (open_codec_context e typ src idx0).stream_idx = idx0
      ∧ (open_codec_context e typ src idx0).err_msg =
          some ("Could not find " ++ av_get_media_type_string typ ++
            " stream in input file \x27" ++ src ++ "\x27"))
    ∧ ((main_run argc env).decode_loop_run = false
      ∧ (main_run argc env).cleanup_run = true) := by
  constructor
  · simp [open_codec_context, hbest]
  · rcases henv with hv | ha
    · have hvret : (open_codec_context env.video_occ .video env.src (-1)).ret < 0 := by
        simp [open_codec_context, hv, hbest]
      unfold main_run
      rw [if_neg (by tauto)]
      simp only [hopen, hinfo]
      split_ifs <;> first
        | (simp_all; done)
        | (simp_all; omega)
    · have haret : (open_codec_context env.audio_occ .audio env.src (-1)).ret < 0 := by
        simp [open_codec_context, ha, hbest]
      unfold main_run
      rw [if_neg (by tauto)]
      simp only [hopen, hinfo]
      split_ifs <;> first
        | (simp_all; done)
        | (simp_all; omega)

/-- C7 witness: one concrete run with no video stream in the input
(the function-level facts), and one with a video stream present but no
audio stream (the run still aborts before the decode loop). -/
theorem open_codec_context_missing_stream_witness :
    ((open_codec_context ⟨-42, true, 0⟩ .video "in.mp4" (-1)).ret < 0
      ∧ (open_codec_context ⟨-42, true, 0⟩ .video "in.mp4" (-1)).ret = -42
      ∧ (open_codec_context ⟨-42, true, 0⟩ .video "in.mp4" (-1)).opened = false
      ∧ (open_codec_context ⟨-42, true, 0⟩ .video "in.mp4" (-1)).stream_idx = -1
      ∧ (open_codec_context ⟨-42, true, 0⟩ .video "in.mp4" (-1)).err_msg =
          some ("Could not find " ++ av_get_media_type_string .video ++
            " stream in input file \x27" ++ "in.mp4" ++ "\x27"))
    ∧ ((main_run 4 { envAllOk with audio_occ := ⟨-42, true, 0⟩ }).decode_loop_run = false
      ∧ (main_run 4 { envAllOk with audio_occ := ⟨-42, true, 0⟩ }).cleanup_run = true) :=
  ⟨(open_codec_context_missing_stream ⟨-42, true, 0⟩ .video "in.mp4" (-1)
      4 { envAllOk with video_occ := ⟨-42, true, 0⟩ }
      (by decide) (Or.inl rfl) (Or.inl rfl) rfl rfl).1,
   (open_codec_context_missing_stream ⟨-42, true, 0⟩ .audio "in.mp4" (-1)
      4 { envAllOk with audio_occ := ⟨-42, true, 0⟩ }
      (by decide) (Or.inr rfl) (Or.inl rfl) rfl rfl).2⟩

/-- C3: a decoded video frame whose width, height or pixel format
differs from the values recorded when the video decoder was opened
makes `decode_packet` return -1 (a negative value) and leaves the
globals — in particular the video output file — unchanged. -/
theorem decode_packet_geometry_change_fatal
    (cfg : Config) (ci : Frame → List Nat) (dec : LibDecode) (st : ProgState)
    (hidx : st.pkt.stream_index = cfg.video_stream_idx)
    (hret : 0 ≤ dec.ret) (hgot : dec.got = true)
    (hgeom : dec.frame.width ≠ cfg.width ∨ dec.frame.height ≠ cfg.height ∨
      dec.frame.format ≠ cfg.pix_fmt) :
    (decode_packet cfg ci dec st).1 = -1 ∧
    (decode_packet cfg ci dec st).1 < 0 ∧
    ((decode_packet cfg ci dec st).2.2).video_file = st.video_file ∧
    (decode_packet cfg ci dec st).2.2 = st := by
  unfold decode_packet
  rw [if_pos hidx, if_neg (by omega), hgot]
  simp [hgeom]

/-- C3 witness: a frame of width 3 against recorded width 2. -/
theorem decode_packet_geometry_change_fatal_witness :
    (decode_packet cfgSmall ciSmall ⟨0, true, frameWider⟩ stVideoPkt).1 = -1 ∧
    (decode_packet cfgSmall ciSmall ⟨0, true, frameWider⟩ stVideoPkt).1 < 0 ∧
    ((decode_packet cfgSmall ciSmall ⟨0, true, frameWider⟩ stVideoPkt).2.2).video_file =
      stVideoPkt.video_file ∧
    (decode_packet cfgSmall ciSmall ⟨0, true, frameWider⟩ stVideoPkt).2.2 = stVideoPkt :=
  decode_packet_geometry_change_fatal cfgSmall ciSmall ⟨0, true, frameWider⟩ stVideoPkt
    (by decide) (by decide) rfl (by decide)

/-- C5: a decoded audio frame appends exactly
`nb_samples * av_get_bytes_per_sample(format)` bytes to the audio
output file, taken from the first plane of the frame only — whatever
its channel count is.  The hypothesis `hbuf` states the C memory
fact that the plane buffer holds at least the unpadded payload. -/
theorem decode_packet_audio_first_plane
    (cfg : Config) (ci : Frame → List Nat) (dec : LibDecode) (st : ProgState)
    (hnv : st.pkt.stream_index ≠ cfg.video_stream_idx)
    (ha : st.pkt.stream_index = cfg.audio_stream_idx)
    (hret : 0 ≤ dec.ret) (hgot : dec.got = true)
    (hbuf : dec.frame.nb_samples * av_get_bytes_per_sample dec.frame.format ≤
      (dec.frame.planes.headD []).length) :
    ((decode_packet cfg ci dec st).2.2).audio_file =
      st.audio_file ++ (dec.frame.planes.headD []).take
        (dec.frame.nb_samples * av_get_bytes_per_sample dec.frame.format) ∧
    ((decode_packet cfg ci dec st).2.2).audio_file.length =
      st.audio_file.length +
        dec.frame.nb_samples * av_get_bytes_per_sample dec.frame.format ∧
    ((decode_packet cfg ci dec st).2.2).video_file = st.video_file := by
  unfold decode_packet
  rw [if_neg hnv, if_pos ha, if_neg (by omega), hgot]
  refine ⟨rfl, ?_, rfl⟩
  rw [List.headD_eq_head?] at hbuf
  simp [fwrite]
  omega

/-- C5 witness: a stereo S16 frame of 3 samples appends 6 bytes, the
payload of the first plane, even though the frame has 2 channels. -/
theorem decode_packet_audio_first_plane_witness :
    ((decode_packet cfgSmall ciSmall ⟨6, true, frameAudio⟩ stAudioPkt).2.2).audio_file =
      stAudioPkt.audio_file ++ (frameAudio.planes.headD []).take
        (frameAudio.nb_samples * av_get_bytes_per_sample frameAudio.format) ∧
    ((decode_packet cfgSmall ciSmall ⟨6, true, frameAudio⟩ stAudioPkt).2.2).audio_file.length =
      stAudioPkt.audio_file.length +
        frameAudio.nb_samples * av_get_bytes_per_sample frameAudio.format ∧
    ((decode_packet cfgSmall ciSmall ⟨6, true, frameAudio⟩ stAudioPkt).2.2).video_file =
      stAudioPkt.video_file :=
  decode_packet_audio_first_plane cfgSmall ciSmall ⟨6, true, frameAudio⟩ stAudioPkt
    (by decide) (by decide) (by decide) rfl (by decide)

/-- C6: a decoded video frame that passes the geometry check appends
exactly `video_dst_bufsize` bytes — the packed image copied off the
frame — to the video output file; consequently a file made of such
writes stays a multiple of the packed frame size.  The hypothesis
`hlen` states that the copy fills the buffer `av_image_alloc` sized
for one packed image of the recorded geometry. -/
theorem decode_packet_video_packed_write
    (cfg : Config) (ci : Frame → List Nat) (dec : LibDecode) (st : ProgState)
    (hidx : st.pkt.stream_index = cfg.video_stream_idx)
    (hret : 0 ≤ dec.ret) (hgot : dec.got = true)
    (hw : dec.frame.width = cfg.width) (hh : dec.frame.height = cfg.height)
    (hf : dec.frame.format = cfg.pix_fmt)
    (hlen : (ci dec.frame).length = cfg.video_dst_bufsize) :
    ((decode_packet cfg ci dec st).2.2).video_file =
      st.video_file ++ (ci dec.frame).take cfg.video_dst_bufsize ∧
    ((decode_packet cfg ci dec st).2.2).video_file.length =
      st.video_file.length + cfg.video_dst_bufsize ∧
    (cfg.video_dst_bufsize ∣ st.video_file.length →
      cfg.video_dst_bufsize ∣ ((decode_packet cfg ci dec st).2.2).video_file.length) := by
  have hstate : (decode_packet cfg ci dec st).2.2 =
      { st with
          video_frame_count := st.video_frame_count + 1,
          video_file := fwrite (ci dec.frame) cfg.video_dst_bufsize st.video_file } := by
    unfold decode_packet
    rw [if_pos hidx, if_neg (by omega), hgot]
    simp [hw, hh, hf]
  rw [hstate]
  refine ⟨rfl, ?_, ?_⟩
  · simp [fwrite, hlen]
  · intro hdvd
    simp only [fwrite, List.length_append, List.length_take, hlen, min_self]
    exact dvd_add hdvd dvd_rfl

/-- C6 witness: a matching 2x2 frame appends exactly the 4 packed
bytes to the video file. -/
theorem decode_packet_video_packed_write_witness :
    ((decode_packet cfgSmall ciSmall ⟨0, true, frameMatch⟩ stVideoPkt).2.2).video_file =
      stVideoPkt.video_file ++ (ciSmall frameMatch).take cfgSmall.video_dst_bufsize ∧
    ((decode_packet cfgSmall ciSmall ⟨0, true, frameMatch⟩ stVideoPkt).2.2).video_file.length =
      stVideoPkt.video_file.length + cfgSmall.video_dst_bufsize ∧
    (cfgSmall.video_dst_bufsize ∣ stVideoPkt.video_file.length →
      cfgSmall.video_dst_bufsize ∣
        ((decode_packet cfgSmall ciSmall ⟨0, true, frameMatch⟩ stVideoPkt).2.2).video_file.length) :=
  decode_packet_video_packed_write cfgSmall ciSmall ⟨0, true, frameMatch⟩ stVideoPkt
    (by decide) (by decide) rfl (by decide) (by decide) (by decide) (by decide)

/-- C4: the inner per-packet loop terminates when every decode-call
outcome in the oracle list either fails or consumes at least one byte:
with at least `pkt.size + 1` outcomes available the loop exits — with
a negative `decode_packet` result, or with the packet bytes fully
consumed (`pkt.size` reaches exactly 0) — and over the whole loop the
data pointer advanced by exactly the amount the size shrank. -/
theorem packet_loop_terminates
    (cfg : Config) (ci : Frame → List Nat) (ds : List LibDecode) (st : ProgState)
    (h0 : 0 ≤ st.pkt.size)
    (hlen : st.pkt.size.toNat + 1 ≤ ds.length)
    (hd : ∀ d ∈ ds, d.ret < 0 ∨ 1 ≤ d.ret) :
    ∃ r st2, packet_loop cfg ci ds st = some (r, st2) ∧
      (r < 0 ∨ st2.pkt.size = 0) ∧
      st2.pkt.data_off + st2.pkt.size = st.pkt.data_off + st.pkt.size := by
  induction ds generalizing st with
  | nil => simp at hlen
  | cons d ds ih =>
    have hpkt := decode_packet_pkt_unchanged cfg ci d st
    have hunf : packet_loop cfg ci (d :: ds) st =
        if (decode_packet cfg ci d st).1 < 0 then
          some ((decode_packet cfg ci d st).1, (decode_packet cfg ci d st).2.2)
        else if 0 < ((decode_packet cfg ci d st).2.2).pkt.size -
            (decode_packet cfg ci d st).1 then
          packet_loop cfg ci ds
            { (decode_packet cfg ci d st).2.2 with
              pkt := { ((decode_packet cfg ci d st).2.2).pkt with
                data_off := ((decode_packet cfg ci d st).2.2).pkt.data_off +
                  (decode_packet cfg ci d st).1,
                size := ((decode_packet cfg ci d st).2.2).pkt.size -
                  (decode_packet cfg ci d st).1 } }
        else
          some ((decode_packet cfg ci d st).1,
            { (decode_packet cfg ci d st).2.2 with
              pkt := { ((decode_packet cfg ci d st).2.2).pkt with
                data_off := ((decode_packet cfg ci d st).2.2).pkt.data_off +
                  (decode_packet cfg ci d st).1,
                size := ((decode_packet cfg ci d st).2.2).pkt.size -
                  (decode_packet cfg ci d st).1 } }) := rfl
    rcases lt_or_le (decode_packet cfg ci d st).1 0 with hneg | hpos
    · refine ⟨(decode_packet cfg ci d st).1, (decode_packet cfg ci d st).2.2, ?_,
        Or.inl hneg, ?_⟩
      · rw [hunf, if_pos hneg]
      · rw [hpkt]
    · have hle : (decode_packet cfg ci d st).1 ≤ st.pkt.size := by
        rcases decode_packet_ret_le_size cfg ci d st with h | h
        · omega
        · exact h
      by_cases hstop : st.pkt.size - (decode_packet cfg ci d st).1 ≤ 0
      · refine ⟨(decode_packet cfg ci d st).1,
          { (decode_packet cfg ci d st).2.2 with
            pkt := { ((decode_packet cfg ci d st).2.2).pkt with
              data_off := ((decode_packet cfg ci d st).2.2).pkt.data_off +
                (decode_packet cfg ci d st).1,
              size := ((decode_packet cfg ci d st).2.2).pkt.size -
                (decode_packet cfg ci d st).1 } }, ?_, ?_, ?_⟩
        · rw [hunf, if_neg (by omega), if_neg (by rw [hpkt]; omega)]
        · right
          simp only [hpkt]
          omega
        · simp only [hpkt]
          omega
      · have hone : 1 ≤ (decode_packet cfg ci d st).1 := by
          rcases decode_packet_ret_pos cfg ci d st (hd d (by simp)) (by omega) with h | h
          · omega
          · exact h
        have hrec := ih
          { (decode_packet cfg ci d st).2.2 with
            pkt := { ((decode_packet cfg ci d st).2.2).pkt with
              data_off := ((decode_packet cfg ci d st).2.2).pkt.data_off +
                (decode_packet cfg ci d st).1,
              size := ((decode_packet cfg ci d st).2.2).pkt.size -
                (decode_packet cfg ci d st).1 } }
          (by simp only [hpkt]; omega)
          (by simp only [hpkt]; simp only [List.length_cons] at hlen; omega)
          (fun x hx => hd x (by simp [hx]))
        obtain ⟨r, st2, heq, hcond, hinv⟩ := hrec
        refine ⟨r, st2, ?_, hcond, ?_⟩
        · rw [hunf, if_neg (by omega), if_pos (by rw [hpkt]; omega)]
          exact heq
        · simp only [hpkt] at hinv
          omega

/-- C4 witness: a 6-byte audio packet with decode calls consuming 6
bytes each terminates with the packet fully consumed. -/
theorem packet_loop_terminates_witness :
    ∃ r st2, packet_loop cfgSmall ciSmall
        (List.replicate 7 ⟨6, true, frameAudio⟩) stAudioPkt = some (r, st2) ∧
      (r < 0 ∨ st2.pkt.size = 0) ∧
      st2.pkt.data_off + st2.pkt.size =
        stAudioPkt.pkt.data_off + stAudioPkt.pkt.size :=
  packet_loop_terminates cfgSmall ciSmall (List.replicate 7 ⟨6, true, frameAudio⟩)
    stAudioPkt (by decide) (by decide) (by decide)

/-- Draining run of the flush loop when the leftover packet carries the
video stream index: the buffer of the video decoder is emptied frame
by frame, the packed copy of each geometry-passing frame is appended to
the video file (frames failing the check are popped but produce only
the fatal -1, which the flush loop ignores), and the audio decoder and
audio file are never touched. -/
lemma flush_drain_video_aux (cfg : Config) (ci : Frame → List Nat) (adec : Decoder) :
    ∀ (bs : List Frame) (st : ProgState),
      st.pkt.stream_index = cfg.video_stream_idx →
      ∃ st2, flush_loop cfg ci (bs.length + 1) ⟨bs⟩ adec st =
          some (⟨[]⟩, adec, st2) ∧
        st2.audio_file = st.audio_file ∧
        st2.pkt = st.pkt ∧
        st2.video_file = st.video_file ++
          ((bs.filter (geometryMatches cfg)).map
            (fun f => (ci f).take cfg.video_dst_bufsize)).flatten := by
  intro bs
  induction bs with
  | nil =>
    intro st hidx
    refine ⟨st, ?_, rfl, rfl, by simp⟩
    simp only [List.length_nil, flush_loop, flush_step_video_empty cfg ci adec st hidx]
    rfl
  | cons f fs ih =>
    intro st hidx
    by_cases hg : geometryMatches cfg f = true
    · have hf : f.width = cfg.width ∧ f.height = cfg.height ∧
          f.format = cfg.pix_fmt := by
        simpa [geometryMatches] using hg
      have hstep := flush_step_video_cons cfg ci adec st f fs hidx hf.1 hf.2.1 hf.2.2
      have hrec := ih
        { st with
            video_frame_count := st.video_frame_count + 1,
            video_file := fwrite (ci f) cfg.video_dst_bufsize st.video_file }
        hidx
      obtain ⟨st2, heq, haud, hpkt2, hvid⟩ := hrec
      refine ⟨st2, ?_, haud, hpkt2, ?_⟩
      · simp only [List.length_cons, flush_loop, hstep]
        exact heq
      · rw [hvid]
        simp [fwrite, List.filter_cons, hg, List.append_assoc]
    · have hgeom : f.width ≠ cfg.width ∨ f.height ≠ cfg.height ∨
          f.format ≠ cfg.pix_fmt := by
        by_contra hc
        push_neg at hc
        exact hg (by simp [geometryMatches, hc.1, hc.2.1, hc.2.2])
      have hstep := flush_step_video_cons_mismatch cfg ci adec st f fs hidx hgeom
      have hrec := ih st hidx
      obtain ⟨st2, heq, haud, hpkt2, hvid⟩ := hrec
      refine ⟨st2, ?_, haud, hpkt2, ?_⟩
      · simp only [List.length_cons, flush_loop, hstep]
        exact heq
      · rw [hvid]
        simp [List.filter_cons, hg]

/-- Draining run of the flush loop when the leftover packet carries the
audio stream index (and not the video one): the buffer of the audio
decoder is emptied frame by frame, the unpadded first-plane payload of
every frame is appended to the audio file, and the video decoder and
video file are never touched. -/
lemma flush_drain_audio_aux (cfg : Config) (ci : Frame → List Nat) (vdec : Decoder) :
    ∀ (bs : List Frame) (st : ProgState),
      st.pkt.stream_index ≠ cfg.video_stream_idx →
      st.pkt.stream_index = cfg.audio_stream_idx →
      ∃ st2, flush_loop cfg ci (bs.length + 1) vdec ⟨bs⟩ st =
          some (vdec, ⟨[]⟩, st2) ∧
        st2.video_file = st.video_file ∧
        st2.pkt = st.pkt ∧
        st2.audio_file = st.audio_file ++
          (bs.map (fun f => (f.planes.headD []).take
            (f.nb_samples * av_get_bytes_per_sample f.format))).flatten := by
  intro bs
  induction bs with
  | nil =>
    intro st hnv ha
    refine ⟨st, ?_, rfl, rfl, by simp⟩
    simp only [List.length_nil, flush_loop,
      flush_step_audio_empty cfg ci vdec st hnv ha]
    rfl
  | cons f fs ih =>
    intro st hnv ha
    have hstep := flush_step_audio_cons cfg ci vdec st f fs hnv ha
    have hrec := ih
      { st with
          audio_frame_count := st.audio_frame_count + 1,
          audio_file := fwrite (f.planes.headD [])
            (f.nb_samples * av_get_bytes_per_sample f.format) st.audio_file }
      hnv ha
    obtain ⟨st2, heq, hvid, hpkt2, haud⟩ := hrec
    refine ⟨st2, ?_, hvid, hpkt2, ?_⟩
    · simp only [List.length_cons, flush_loop, hstep]
      exact heq
    · rw [haud]
      simp [fwrite, List.append_assoc]

/-- C2 counterexample: the last packet read carried the video stream
index, the video decoder has nothing buffered, and the audio decoder
still holds one buffered frame; the flush loop makes a single video
decode call, gets no frame, and stops — the buffered frame of the
audio decoder is never decoded and the audio output file stays unchanged, so
not every frame buffered in both decoders is written out. -/
theorem flush_loop_skips_other_decoder :
    flush_loop cfgSmall ciSmall 5 ⟨[]⟩ ⟨[frameAudio]⟩ stVideoPkt =
      some (⟨[]⟩, ⟨[frameAudio]⟩, stVideoPkt) ∧
    (⟨[frameAudio]⟩ : Decoder).buffered ≠ [] := by
  exact ⟨by decide, by decide⟩

/-- C2 (amended): after input is exhausted the program repeats decode
calls with an empty packet until no more frames are produced, but
`decode_packet` dispatches on the leftover `pkt.stream_index` of the
last-read packet, so only the decoder of that one stream — whichever
of the two it is — is flushed: when the leftover index is the video
stream, the video decoder is fully drained and its geometry-passing
frames written out; when it is the audio stream, the audio decoder is
fully drained and every frame written out; in both cases the buffered
frames of the other decoder are not decoded and its output file
receives nothing. -/
theorem flush_loop_drains_only_matching_decoder
    (cfg : Config) (ci : Frame → List Nat) (vdec adec : Decoder) (st : ProgState) :
    (st.pkt.stream_index = cfg.video_stream_idx →
      ∃ st2, flush_loop cfg ci (vdec.buffered.length + 1) vdec adec st =
          some (⟨[]⟩, adec, st2) ∧
        st2.audio_file = st.audio_file ∧
        st2.pkt = st.pkt ∧
        st2.video_file = st.video_file ++
          ((vdec.buffered.filter (geometryMatches cfg)).map
            (fun f => (ci f).take cfg.video_dst_bufsize)).flatten)
    ∧ (st.pkt.stream_index ≠ cfg.video_stream_idx →
        st.pkt.stream_index = cfg.audio_stream_idx →
      ∃ st2, flush_loop cfg ci (adec.buffered.length + 1) vdec adec st =
          some (vdec, ⟨[]⟩, st2) ∧
        st2.video_file = st.video_file ∧
        st2.pkt = st.pkt ∧
        st2.audio_file = st.audio_file ++
          (adec.buffered.map (fun f => (f.planes.headD []).take
            (f.nb_samples * av_get_bytes_per_sample f.format))).flatten) :=
  ⟨fun hidx => flush_drain_video_aux cfg ci adec vdec.buffered st hidx,
   fun hnv ha => flush_drain_audio_aux cfg ci vdec adec.buffered st hnv ha⟩

/-- C2 witness: with a video-stream leftover packet, a mixed buffer of
one matching and one mismatching video frame drains fully, writing only
the packed copy of the matching frame, with the audio side untouched;
with an audio-stream leftover packet, one buffered audio frame drains
and its payload is written, with the video side untouched. -/
theorem flush_loop_drains_only_matching_decoder_witness :
    (∃ st2, flush_loop cfgSmall ciSmall
        ((⟨[frameMatch, frameWider]⟩ : Decoder).buffered.length + 1)
        ⟨[frameMatch, frameWider]⟩ ⟨[frameAudio]⟩ stVideoPkt =
        some (⟨[]⟩, ⟨[frameAudio]⟩, st2) ∧
      st2.audio_file = stVideoPkt.audio_file ∧
      st2.pkt = stVideoPkt.pkt ∧
      st2.video_file = stVideoPkt.video_file ++
        (((⟨[frameMatch, frameWider]⟩ : Decoder).buffered.filter
            (geometryMatches cfgSmall)).map
          (fun f => (ciSmall f).take cfgSmall.video_dst_bufsize)).flatten)
    ∧ (∃ st2, flush_loop cfgSmall ciSmall
        ((⟨[frameAudio]⟩ : Decoder).buffered.length + 1)
        ⟨[frameMatch]⟩ ⟨[frameAudio]⟩ stAudioPkt =
        some (⟨[frameMatch]⟩, ⟨[]⟩, st2) ∧
      st2.video_file = stAudioPkt.video_file ∧
      st2.pkt = stAudioPkt.pkt ∧
      st2.audio_file = stAudioPkt.audio_file ++
        ((⟨[frameAudio]⟩ : Decoder).buffered.map (fun f => (f.planes.headD []).take
          (f.nb_samples * av_get_bytes_per_sample f.format))).flatten) :=
  ⟨(flush_loop_drains_only_matching_decoder cfgSmall ciSmall
      ⟨[frameMatch, frameWider]⟩ ⟨[frameAudio]⟩ stVideoPkt).1 (by decide),
   (flush_loop_drains_only_matching_decoder cfgSmall ciSmall
      ⟨[frameMatch]⟩ ⟨[frameAudio]⟩ stAudioPkt).2 (by decide) (by decide)⟩

end Demux
